import Mathlib

/-!
Shallow embedding of the piker broker-client core:
`src/piker/brokers/questrade.py` (token lifecycle manager) and
`src/piker/brokers/config.py` (config store).

Python dicts are modelled as insertion-ordered association lists,
floats (clock readings and TTLs) as rationals, raised exceptions as an
explicit `Except` carrying a Python-style error value, and the in-place
mutation of `Client.access_data` and of the HTTP session as explicit
state passing.  HTTP responses and the outcomes of probe calls are
oracle inputs; a trace of observable events (refresh HTTP calls,
liveness probes, forced-refresh invocations, config writes) instruments
the control flow.
-/

namespace Piker

/-- A scalar value stored in a credential record or a JSON body. -/
inductive Value where
  | str (s : String)
  | num (q : ℚ)
deriving DecidableEq, Repr

/-- Python-style errors raised by the embedded code. -/
inductive PyErr where
  | keyError (k : String)
  | valueError (msg : String)
  | typeError (what : String)
  | questradeError (body : String)
  | fileNotFound
  | transportError (msg : String)
deriving DecidableEq, Repr

/-- Lookup in an insertion-ordered association list (Python `d.get(k)` and `d[k]`). -/
def aget {κ α : Type} [DecidableEq κ] : List (κ × α) → κ → Option α
  | [], _ => none
  | (k', v) :: rest, k => if k' = k then some v else aget rest k

/-- Update one key in place, appending when absent (Python `d[k] = v`). -/
def aset {κ α : Type} [DecidableEq κ] : List (κ × α) → κ → α → List (κ × α)
  | [], k, v => [(k, v)]
  | (k', v') :: rest, k, v =>
      if k' = k then (k, v) :: rest else (k', v') :: aset rest k v

/-- Merge `data` into `d` key by key, in order (Python `d.update(data)`). -/
def aupdate {κ α : Type} [DecidableEq κ] (d data : List (κ × α)) : List (κ × α) :=
  data.foldl (fun acc p => aset acc p.1 p.2) d

/-- A Python dict of scalars, e.g. `Client.access_data` or a parsed JSON body. -/
abbrev PyDict := List (String × Value)

/-- Python `d.get(k, dflt)`. -/
def agetD (d : PyDict) (k : String) (dflt : Value) : Value :=
  (aget d k).getD dflt

/-- Python `float(v)` as the code uses it: numbers pass through; strings
parse when they are integer literals and raise `ValueError` otherwise
(the full fractional grammar of `float` is not exercised by any value the
code builds). -/
def pyFloat : Value → Except PyErr ℚ
  | .num q => .ok q
  | .str s =>
      match s.toInt? with
      | some n => .ok ((n : ℚ))
      | none => .error (.valueError s)

/-- Python truthiness of `self.access_data.get("access_token")`:
`None`, the empty string and zero are falsy. -/
def pyFalsy : Option Value → Bool
  | none => true
  | some (.str s) => s.isEmpty
  | some (.num q) => decide (q = 0)

/-- An HTTP response as `resproc` sees it: status code, raw body, and the
JSON body (`resp.json()` is modelled as already parsed at the oracle
boundary). -/
structure Response where
  status_code : Nat
  body : String
  json : PyDict
deriving DecidableEq, Repr

/-- Embeds `resproc` (questrade.py lines 24-36): return the parsed JSON,
and raise `QuestradeError` carrying the raw body on any status other
than 200. -/
def resproc (resp : Response) : Except PyErr PyDict :=
  if resp.status_code = 200 then .ok resp.json else .error (.questradeError resp.body)

/-- The mutable parts of the `asks.Session` that the client touches. -/
structure Sess where
  headers : List (String × Value)
  base_location : Option String
deriving DecidableEq, Repr

/-- A fresh session as built in `Client.__init__`. -/
def initSess : Sess := { headers := [], base_location := none }

/-- The in-place mutable state of a `Client`: its credential record
`access_data` and its HTTP session. -/
structure CState where
  access_data : PyDict
  sess : Sess
deriving DecidableEq, Repr

/-- Observable events of the control flow: a refresh HTTP call (the GET
to the token endpoint in `_new_auth_token`), a liveness probe
(`api.time()`), an invocation of `enable_access(force_refresh=True)`
from the probe handler, and a `config.write` call. -/
inductive Ev where
  | refresh
  | probe
  | forcedRefresh
  | write
deriving DecidableEq, Repr

/-- Count occurrences of one event in a trace. -/
def countEv (tr : List Ev) (e : Ev) : Nat :=
  (tr.filter (fun x => decide (x = e))).length

/-- Python `str()` as used inside the Authorization-header f-string. -/
def valueStr : Value → String
  | .str s => s
  | .num q => toString q

/-- Embeds `Client._prep_sess` (lines 92-100): reads `token_type`,
`access_token` and `api_server` from the record with bracket lookups
(raising `KeyError` when a key is absent), sets the Authorization header
to their f-string, and sets the base url to `api_server + "v1"` (string
concatenation, so a non-string `api_server` raises `TypeError`). -/
def prep_sess (ad : PyDict) (s : Sess) : Except PyErr Sess :=
  match aget ad "token_type" with
  | none => .error (.keyError "token_type")
  | some tt =>
      match aget ad "access_token" with
      | none => .error (.keyError "access_token")
      | some tok =>
          match aget ad "api_server" with
          | none => .error (.keyError "api_server")
          | some (.num _) => .error (.typeError "api_server")
          | some (.str api) =>
              .ok { headers := aset s.headers "Authorization"
                      (.str (valueStr tt ++ " " ++ valueStr tok)),
                    base_location := some (api ++ "v1") }

/-- Embeds `Client._new_auth_token` (lines 73-90): builds the token
request parameters from `access_data["refresh_token"]` (raising
`KeyError` when absent, before any network call), issues the GET to the
token endpoint (the `.refresh` event; `resp` is the server oracle), runs
`resproc`, and on success merges the whole JSON body into the record in
place with `dict.update`. -/
def new_auth_token (st : CState) (resp : Response) :
    CState × List Ev × Except PyErr PyDict :=
  match aget st.access_data "refresh_token" with
  | none => (st, [], .error (.keyError "refresh_token"))
  | some _ =>
      match resproc resp with
      | .error e => (st, [.refresh], .error e)
      | .ok data =>
          ({ st with access_data := aupdate st.access_data data }, [.refresh], .ok data)

/-- Embeds `Client._revoke_auth_token` (lines 102-111): reads the
refresh token (raising `KeyError` when absent), POSTs it to the revoke
endpoint and returns the raw response.  `postResult` is the transport
oracle: an error value models a raised transport exception.  The source
has no try/except around the call and never checks the response status. -/
def revoke_auth_token (st : CState) (postResult : Except PyErr Response) :
    Except PyErr Response :=
  match aget st.access_data "refresh_token" with
  | none => .error (.keyError "refresh_token")
  | some _ => postResult

/-- Embeds `Client.enable_access` (lines 113-135).  `t1` is the
`time.time()` read in the staleness test on line 124, `t2` the read used
for `expires_at` on line 131; `resp` is the refresh-endpoint oracle.
The returned `CState` is the client state after the call, including any
mutation made before a raise; the `Except` is the return value or the
raised error. -/
def enable_access (st : CState) (t1 t2 : ℚ) (resp : Response) (force : Bool) :
    CState × List Ev × Except PyErr PyDict :=
  match pyFloat (agetD st.access_data "expires_at" (.num 0)) with
  | .error e => (st, [], .error e)
  | .ok expires =>
      if pyFalsy (aget st.access_data "access_token") || decide (expires < t1) || force then
        match new_auth_token st resp with
        | (st1, tr, .error e) => (st1, tr, .error e)
        | (st1, tr, .ok data) =>
            match aget data "expires_in" with
            | none => (st1, tr, .error (.keyError "expires_in"))
            | some v =>
                match pyFloat v with
                | .error e => (st1, tr, .error e)
                | .ok ein =>
                    let ad2 := aset st1.access_data "expires_at" (.num (t2 + ein))
                    match prep_sess ad2 st1.sess with
                    | .error e => ({ st1 with access_data := ad2 }, tr, .error e)
                    | .ok s2 => (⟨ad2, s2⟩, tr, .ok ad2)
      else
        match prep_sess st.access_data st.sess with
        | .error e => (st, [], .error e)
        | .ok s2 => ({ st with sess := s2 }, [], .ok st.access_data)

/-- A full broker config mapping: section name to flat record (the parsed
TOML document). -/
abbrev TomlConf := List (String × PyDict)

/-- Oracle inputs for one `get_client` run: clock reads and server
response for the initial `enable_access` inside `Client.from_config`,
the first probe outcome, clock reads and response for the forced
refresh, the second probe outcome, and the outcome of the caller block
that runs at the `yield`. -/
structure Oracles where
  t1 : ℚ
  t2 : ℚ
  resp0 : Response
  probe1 : Except PyErr PyDict
  t3 : ℚ
  t4 : ℚ
  resp1 : Response
  probe2 : Except PyErr PyDict
  body : Except PyErr Unit

/-- The body of `get_client` after a successful `Client.from_config`:
the probe try/except (lines 162-171) and the `yield` (line 173).  The
handler first evaluates the warning f-string which looks up
`access_data["access_token"]` with a bracket lookup.  Returns the events
and the outcome that reaches the enclosing `finally`. -/
def getClientInner (st : CState) (o : Oracles) : List Ev × Except PyErr Unit :=
  match o.probe1 with
  | .ok _ => ([.probe], o.body)
  | .error _ =>
      match aget st.access_data "access_token" with
      | none => ([.probe], .error (.keyError "access_token"))
      | some _ =>
          match enable_access st o.t3 o.t4 o.resp1 true with
          | (_, trF, .error e) => ([.probe, .forcedRefresh] ++ trF, .error e)
          | (_, trF, .ok _) =>
              match o.probe2 with
              | .error e => ([.probe, .forcedRefresh] ++ trF ++ [.probe], .error e)
              | .ok _ => ([.probe, .forcedRefresh] ++ trF ++ [.probe], o.body)

/-- Embeds `get_client` (lines 152-177) given a loaded `conf` mapping
(the `get_config` console-prompt path is interactive plumbing outside
the session logic): builds the client from the `questrade` section, runs
the initial `enable_access` inside `Client.from_config`, and on success
enters the try block whose `finally` always stores the record back into
`conf` and calls `config.write` (the `.write` event). -/
def runGetClient (conf : TomlConf) (o : Oracles) : List Ev × Except PyErr Unit :=
  match aget conf "questrade" with
  | none => ([], .error (.keyError "questrade"))
  | some qd =>
      match enable_access ⟨qd, initSess⟩ o.t1 o.t2 o.resp0 false with
      | (_, tr0, .error e) => (tr0, .error e)
      | (st1, tr0, .ok _) =>
          let inner := getClientInner st1 o
          (tr0 ++ inner.1 ++ [.write], inner.2)

/-- Whether the `Client.from_config` stage of a `get_client` run
succeeds: the config has a `questrade` section and the initial
`enable_access` returns normally. -/
def initOk (conf : TomlConf) (o : Oracles) : Bool :=
  match aget conf "questrade" with
  | none => false
  | some qd =>
      match enable_access ⟨qd, initSess⟩ o.t1 o.t2 o.resp0 false with
      | (_, _, .error _) => false
      | (_, _, .ok _) => true

/-- A filesystem path split as the `os.path.dirname` part and the file
name part. -/
structure FPath where
  dir : String
  base : String
deriving DecidableEq, Repr

/-- Embeds `get_broker_conf_path`: the configured directory joined with
the fixed file name; the module-global `_config_dir` is passed
explicitly. -/
def get_broker_conf_path (cfgDir : String) : FPath :=
  ⟨cfgDir, "brokers.toml"⟩

/-- Python `path = path or get_broker_conf_path()`. -/
def resolvePath (cfgDir : String) : Option FPath → FPath
  | none => get_broker_conf_path cfgDir
  | some p => p

/-- The filesystem as the config store sees it: the set of existing
directories and the contents of written config files.  TOML marshalling
is modelled at the interface boundary as verbatim (spec section 4.1: the
store never mutates values, only marshals and unmarshals them). -/
structure FS where
  dirs : List String
  files : List (FPath × TomlConf)
deriving DecidableEq, Repr

/-- Embeds `config.load` (config.py lines 27-35): resolves the path and
parses the file at it, raising when the file does not exist. -/
def load (pathOpt : Option FPath) (cfgDir : String) (fs : FS) :
    Except PyErr (TomlConf × FPath) :=
  let p := resolvePath cfgDir pathOpt
  match aget fs.files p with
  | none => .error .fileNotFound
  | some c => .ok (c, p)

/-- Embeds `config.write` (config.py lines 38-58): resolves the path,
creates the containing directory when it is absent, then rejects an
empty mapping with `ValueError`, and otherwise serializes the mapping to
the file.  Returns the filesystem after the call (mutations made before
a raise included) and the outcome. -/
def write (conf : TomlConf) (pathOpt : Option FPath) (cfgDir : String) (fs : FS) :
    FS × Except PyErr Unit :=
  let p := resolvePath cfgDir pathOpt
  let fs1 := if fs.dirs.contains p.dir then fs else { fs with dirs := p.dir :: fs.dirs }
  if conf.isEmpty then
    (fs1, .error (.valueError "blank config"))
  else
    ({ fs1 with files := aset fs1.files p conf }, .ok ())

/-- The expiry instant as the spec reads it: the stored number, or 0 when
the key is absent. -/
def specExpiresAt (ad : PyDict) : ℚ :=
  match aget ad "expires_at" with
  | some (.num q) => q
  | _ => 0

/-- The refresh condition exactly as claim C2 states it: forceRefresh is
true, or `access_token` is absent, or now is at or past `expires_at`
(read as 0 when absent). -/
def specRefreshNeeded (ad : PyDict) (t1 : ℚ) (force : Bool) : Prop :=
  force = true ∨ aget ad "access_token" = none ∨ specExpiresAt ad ≤ t1

/-- Claim C2 instantiated at one call: the number of refresh calls
performed by `enable_access` is one exactly when the stated condition
holds, and zero otherwise. -/
def claimC2At (st : CState) (t1 t2 : ℚ) (resp : Response) (force : Bool) : Prop :=
  countEv (enable_access st t1 t2 resp force).2.1 .refresh =
    (if force = true ∨ aget st.access_data "access_token" = none ∨
        specExpiresAt st.access_data ≤ t1 then 1 else 0)

/-! ### Association-list and trace lemmas -/

theorem aget_aset_self {κ α : Type} [DecidableEq κ] (d : List (κ × α)) (k : κ) (v : α) :
    aget (aset d k v) k = some v := by
  induction d with
  | nil => simp [aset, aget]
  | cons p rest ih =>
      obtain ⟨k', v'⟩ := p
      by_cases h : k' = k
      · subst h; simp [aset, aget]
      · simp [aset, aget, h, ih]

theorem aget_aset_ne {κ α : Type} [DecidableEq κ] (d : List (κ × α)) (k k2 : κ) (v : α)
    (h : k ≠ k2) : aget (aset d k v) k2 = aget d k2 := by
  induction d with
  | nil => simp [aset, aget, h]
  | cons p rest ih =>
      obtain ⟨k', v'⟩ := p
      by_cases h2 : k' = k
      · subst h2; simp [aset, aget, h]
      · simp [aset, aget, h2, ih]

theorem aupdate_cons {κ α : Type} [DecidableEq κ] (d : List (κ × α)) (k : κ) (v : α)
    (rest : List (κ × α)) : aupdate d ((k, v) :: rest) = aupdate (aset d k v) rest := rfl

theorem aget_aupdate_not_mem {κ α : Type} [DecidableEq κ] (d data : List (κ × α)) (k : κ)
    (h : k ∉ data.map Prod.fst) : aget (aupdate d data) k = aget d k := by
  induction data generalizing d with
  | nil => rfl
  | cons p rest ih =>
      obtain ⟨k0, v0⟩ := p
      simp only [List.map_cons, List.mem_cons] at h
      push_neg at h
      rw [aupdate_cons, ih (aset d k0 v0) h.2, aget_aset_ne d k0 k v0 (Ne.symm h.1)]

theorem aget_aupdate_mem {κ α : Type} [DecidableEq κ] (d data : List (κ × α)) (k : κ) (v : α)
    (hnd : (data.map Prod.fst).Nodup) (h : aget data k = some v) :
    aget (aupdate d data) k = some v := by
  induction data generalizing d with
  | nil => simp [aget] at h
  | cons p rest ih =>
      obtain ⟨k0, v0⟩ := p
      simp only [List.map_cons, List.nodup_cons] at hnd
      rw [aupdate_cons]
      by_cases hk : k0 = k
      · subst hk
        have h2 : v0 = v := by simpa [aget] using h
        rw [aget_aupdate_not_mem (aset d k0 v0) rest k0 hnd.1, aget_aset_self, h2]
      · have h2 : aget rest k = some v := by
          simpa [aget, hk] using h
        exact ih (aset d k0 v0) hnd.2 h2

theorem countEv_append (a b : List Ev) (e : Ev) :
    countEv (a ++ b) e = countEv a e + countEv b e := by
  simp [countEv, List.filter_append]

theorem new_auth_token_events (st : CState) (resp : Response) :
    (new_auth_token st resp).2.1 = [] ∨ (new_auth_token st resp).2.1 = [.refresh] := by
  unfold new_auth_token
  cases hrt : aget st.access_data "refresh_token" with
  | none => simp
  | some v =>
      cases hr : resproc resp with
      | error e => simp
      | ok data => simp

theorem enable_access_events (st : CState) (t1 t2 : ℚ) (resp : Response) (force : Bool) :
    (enable_access st t1 t2 resp force).2.1 = [] ∨
    (enable_access st t1 t2 resp force).2.1 = [.refresh] := by
  unfold enable_access
  split
  · simp
  · split
    · split
      · next st1 tr e heq =>
          have htr := new_auth_token_events st resp
          rw [heq] at htr
          simpa using htr
      · next st1 tr data heq =>
          have htr := new_auth_token_events st resp
          rw [heq] at htr
          simp only at htr
          split
          · simpa using htr
          · split
            · simpa using htr
            · dsimp only
              split
              · simpa using htr
              · simpa using htr
    · split
      · simp
      · simp

theorem prep_sess_ok_keys (ad : PyDict) (s s2 : Sess) (h : prep_sess ad s = .ok s2) :
    (∃ v, aget ad "token_type" = some v) ∧ (∃ v, aget ad "access_token" = some v) ∧
    (∃ v, aget ad "api_server" = some v) := by
  unfold prep_sess at h
  split at h
  · exact absurd h (by simp)
  · rename_i tt heq1
    split at h
    · exact absurd h (by simp)
    · rename_i tok heq2
      split at h
      · exact absurd h (by simp)
      · exact absurd h (by simp)
      · rename_i api heq3
        exact ⟨⟨tt, heq1⟩, ⟨tok, heq2⟩, ⟨.str api, heq3⟩⟩

end Piker

/-! ### Claim theorems, witnesses and counterexamples -/

namespace Piker
/-- When `enable_access` returns normally, `_prep_sess` succeeded on the final record, so the record carries an `access_token` key (used by the warning f-string in the probe handler). -/
theorem enable_access_ok_access_token (st : CState) (t1 t2 : ℚ) (resp : Response)
    (force : Bool) (st1 : CState) (tr : List Ev) (d : PyDict)
    (h : enable_access st t1 t2 resp force = (st1, tr, .ok d)) :
    ∃ v, aget st1.access_data "access_token" = some v := by
  unfold enable_access at h
  split at h
  · exact absurd h (by simp)
  · split at h
    · split at h
      · exact absurd h (by simp)
      · rename_i st1' tr' data heq
        split at h
        · exact absurd h (by simp)
        · split at h
          · exact absurd h (by simp)
          · dsimp only at h
            split at h
            · exact absurd h (by simp)
            · rename_i s2 hps
              have hst := congrArg (fun p => p.1.access_data) h
              simp only at hst
              rw [← hst]
              exact (prep_sess_ok_keys _ _ _ hps).2.1
    · split at h
      · exact absurd h (by simp)
      · rename_i s2 hps
        have hst := congrArg (fun p => p.1.access_data) h
        simp only at hst
        rw [← hst]
        exact (prep_sess_ok_keys _ _ _ hps).2.1



/-- When the record has a `refresh_token`, `_new_auth_token` issues exactly one refresh HTTP call, whether or not `resproc` then raises. -/
theorem new_auth_token_trace_some (st : CState) (resp : Response) (rt : Value)
    (hrt : aget st.access_data "refresh_token" = some rt) :
    (new_auth_token st resp).2.1 = [.refresh] := by
  unfold new_auth_token
  rw [hrt]
  cases hr : resproc resp <;> simp

/-- The event trace of `enable_access` is the trace of `_new_auth_token` when the staleness condition of line 124 holds and is empty otherwise. -/
theorem enable_access_trace_eq (st : CState) (t1 t2 : ℚ) (resp : Response) (force : Bool)
    (ex : ℚ) (hex : pyFloat (agetD st.access_data "expires_at" (.num 0)) = .ok ex) :
    (enable_access st t1 t2 resp force).2.1 =
      (if pyFalsy (aget st.access_data "access_token") || decide (ex < t1) || force
       then (new_auth_token st resp).2.1 else []) := by
  unfold enable_access
  rw [hex]
  dsimp only
  by_cases hc : (pyFalsy (aget st.access_data "access_token") || decide (ex < t1) || force) = true
  · rw [if_pos hc, if_pos hc]
    split
    · next st1 tr e heq =>
        rw [heq]
    · next st1 tr data heq =>
        rw [heq]
        split
        · rfl
        · split
          · rfl
          · dsimp only
            split <;> rfl
  · have hc2 : (pyFalsy (aget st.access_data "access_token") || decide (ex < t1) || force) = false := by
      simpa using hc
    rw [if_neg (by simp [hc2]), if_neg (by simp [hc2])]
    split <;> rfl



/-- C2 (amended): for a record holding a `refresh_token`, `enable_access` performs exactly one refresh call exactly when `access_token` is Python-falsy (absent or empty), or `expires_at` is STRICTLY less than the current clock reading, or `force_refresh` is set; otherwise it performs zero refresh calls. -/
theorem c2_refresh_iff_amended (st : CState) (t1 t2 : ℚ) (resp : Response) (force : Bool)
    (ex : ℚ) (rt : Value)
    (hex : pyFloat (agetD st.access_data "expires_at" (.num 0)) = .ok ex)
    (hrt : aget st.access_data "refresh_token" = some rt) :
    countEv (enable_access st t1 t2 resp force).2.1 .refresh =
      (if pyFalsy (aget st.access_data "access_token") = true ∨ ex < t1 ∨ force = true
       then 1 else 0) := by
  rw [enable_access_trace_eq st t1 t2 resp force ex hex,
      new_auth_token_trace_some st resp rt hrt]
  have hiff : (pyFalsy (aget st.access_data "access_token") || decide (ex < t1) || force) = true ↔
      (pyFalsy (aget st.access_data "access_token") = true ∨ ex < t1 ∨ force = true) := by
    simp [Bool.or_eq_true, decide_eq_true_eq, or_assoc]
  by_cases hc : (pyFalsy (aget st.access_data "access_token") || decide (ex < t1) || force) = true
  · rw [if_pos hc, if_pos (hiff.mp hc)]
    rfl
  · rw [if_neg hc, if_neg (fun hp => hc (hiff.mpr hp))]
    rfl

/-- C9: when the refresh call returns a non-200 status, the `QuestradeError` is raised inside `resproc` before `dict.update` runs, so the whole client state (record and session) is exactly as it was before the attempt, and the error propagates. -/
theorem c9_refresh_failure_atomic (st : CState) (t1 t2 : ℚ) (resp : Response) (force : Bool)
    (ex : ℚ) (rt : Value)
    (hex : pyFloat (agetD st.access_data "expires_at" (.num 0)) = .ok ex)
    (hrt : aget st.access_data "refresh_token" = some rt)
    (hcond : (pyFalsy (aget st.access_data "access_token") || decide (ex < t1) || force) = true)
    (hstatus : resp.status_code ≠ 200) :
    (enable_access st t1 t2 resp force).1 = st ∧
    (enable_access st t1 t2 resp force).2.2 = .error (.questradeError resp.body) := by
  have hresproc : resproc resp = .error (.questradeError resp.body) := by
    unfold resproc; rw [if_neg hstatus]
  have hna : new_auth_token st resp = (st, [.refresh], .error (.questradeError resp.body)) := by
    unfold new_auth_token; rw [hrt, hresproc]
  unfold enable_access
  rw [hex]
  dsimp only
  rw [if_pos hcond, hna]
  exact ⟨rfl, rfl⟩

/-- On a successful refresh, the final record is the old record merged with the whole response body, with `expires_at` then overwritten by the second clock reading plus `expires_in`. -/
theorem enable_access_refresh_final_ad (st : CState) (t1 t2 : ℚ) (resp : Response) (force : Bool)
    (ex e : ℚ) (rt : Value)
    (hex : pyFloat (agetD st.access_data "expires_at" (.num 0)) = .ok ex)
    (hrt : aget st.access_data "refresh_token" = some rt)
    (hcond : (pyFalsy (aget st.access_data "access_token") || decide (ex < t1) || force) = true)
    (hstatus : resp.status_code = 200)
    (hein : aget resp.json "expires_in" = some (.num e)) :
    (enable_access st t1 t2 resp force).1.access_data =
      aset (aupdate st.access_data resp.json) "expires_at" (.num (t2 + e)) := by
  have hresproc : resproc resp = .ok resp.json := by
    unfold resproc; rw [if_pos hstatus]
  have hna : new_auth_token st resp =
      ({ st with access_data := aupdate st.access_data resp.json }, [.refresh], .ok resp.json) := by
    unfold new_auth_token; rw [hrt, hresproc]
  unfold enable_access
  rw [hex]
  dsimp only
  rw [if_pos hcond, hna]
  dsimp only
  rw [hein]
  dsimp only [pyFloat]
  split <;> rfl

/-- C4: whenever `enable_access` performs a refresh that succeeds, every field of the JSON response (other than a hypothetical `expires_at` field, which is recomputed) is merged into the record, and `expires_at` is set to the post-call clock reading plus `expires_in`: strictly above the pre-call reading `t1` and exceeding it by at least `expires_in` (exactly, up to the clock advance between the two reads). -/
theorem c4_refresh_merge_expiry (st : CState) (t1 t2 : ℚ) (resp : Response) (force : Bool)
    (ex e : ℚ) (rt : Value)
    (hex : pyFloat (agetD st.access_data "expires_at" (.num 0)) = .ok ex)
    (hrt : aget st.access_data "refresh_token" = some rt)
    (hcond : (pyFalsy (aget st.access_data "access_token") || decide (ex < t1) || force) = true)
    (hstatus : resp.status_code = 200)
    (hein : aget resp.json "expires_in" = some (.num e))
    (hnd : (resp.json.map Prod.fst).Nodup)
    (hmono : t1 ≤ t2) (hpos : 0 < e) :
    aget (enable_access st t1 t2 resp force).1.access_data "expires_at"
        = some (.num (t2 + e)) ∧
    t1 < t2 + e ∧ t1 + e ≤ t2 + e ∧
    (∀ k v, k ≠ "expires_at" → aget resp.json k = some v →
      aget (enable_access st t1 t2 resp force).1.access_data k = some v) := by
  have hfin := enable_access_refresh_final_ad st t1 t2 resp force ex e rt hex hrt hcond hstatus hein
  refine ⟨?_, ?_, ?_, ?_⟩
  · rw [hfin, aget_aset_self]
  · linarith
  · linarith
  · intro k v hk hkv
    rw [hfin, aget_aset_ne _ _ _ _ (fun hh => hk hh.symm)]
    exact aget_aupdate_mem _ _ _ _ hnd hkv



/-- A trace produced by `enable_access` contains no probe, forced-refresh or write events. -/
theorem countEv_refresh_only (trF : List Ev) (h : trF = [] ∨ trF = [.refresh]) :
    countEv trF .probe = 0 ∧ countEv trF .forcedRefresh = 0 ∧ countEv trF .write = 0 := by
  rcases h with h | h <;> subst h <;> exact ⟨rfl, rfl, rfl⟩

/-- The probe-and-retry block of `get_client` never calls `config.write` itself. -/
theorem getClientInner_no_write (st : CState) (o : Oracles) :
    countEv (getClientInner st o).1 .write = 0 := by
  unfold getClientInner
  split
  · rfl
  · split
    · rfl
    · split
      · next st2 trF e heq =>
          have hE := enable_access_events st o.t3 o.t4 o.resp1 true
          rw [heq] at hE
          simp only at hE
          obtain ⟨-, -, hw⟩ := countEv_refresh_only trF hE
          rw [countEv_append, hw]
          decide
      · next st2 trF d heq =>
          have hE := enable_access_events st o.t3 o.t4 o.resp1 true
          rw [heq] at hE
          simp only at hE
          obtain ⟨-, -, hw⟩ := countEv_refresh_only trF hE
          split
          · rw [countEv_append, countEv_append, hw]
            decide
          · rw [countEv_append, countEv_append, hw]
            decide

/-- The probe-and-retry block of `get_client` issues at most two liveness probes. -/
theorem getClientInner_probe_le (st : CState) (o : Oracles) :
    countEv (getClientInner st o).1 .probe ≤ 2 := by
  unfold getClientInner
  split
  · show countEv [Ev.probe] Ev.probe ≤ 2
    decide
  · split
    · show countEv [Ev.probe] Ev.probe ≤ 2
      decide
    · split
      · next st2 trF e heq =>
          have hE := enable_access_events st o.t3 o.t4 o.resp1 true
          rw [heq] at hE
          simp only at hE
          obtain ⟨hp, -, -⟩ := countEv_refresh_only trF hE
          rw [countEv_append, hp]
          decide
      · next st2 trF d heq =>
          have hE := enable_access_events st o.t3 o.t4 o.resp1 true
          rw [heq] at hE
          simp only at hE
          obtain ⟨hp, -, -⟩ := countEv_refresh_only trF hE
          split
          · rw [countEv_append, countEv_append, hp]
            decide
          · rw [countEv_append, countEv_append, hp]
            decide

/-- A full `get_client` run issues at most two liveness probes. -/
theorem runGetClient_probe_le_two (c : TomlConf) (o : Oracles) :
    countEv (runGetClient c o).1 .probe ≤ 2 := by
  unfold runGetClient
  cases hq : aget c "questrade" with
  | none =>
      show countEv ([] : List Ev) Ev.probe ≤ 2
      decide
  | some qd =>
      dsimp only
      rcases he : enable_access ⟨qd, initSess⟩ o.t1 o.t2 o.resp0 false with ⟨st1, tr0, r0⟩
      have h0 := enable_access_events ⟨qd, initSess⟩ o.t1 o.t2 o.resp0 false
      rw [he] at h0
      simp only at h0
      obtain ⟨hp0, -, -⟩ := countEv_refresh_only tr0 h0
      cases r0 with
      | error e =>
          dsimp only
          rw [hp0]
          exact Nat.zero_le 2
      | ok d =>
          dsimp only
          rw [countEv_append, countEv_append, hp0]
          have hI := getClientInner_probe_le st1 o
          have hw : countEv [Ev.write] Ev.probe = 0 := rfl
          omega

/-- C1 (amended): `config.write` is invoked exactly once on every `get_client` run whose `Client.from_config` stage succeeds -- including runs where the liveness probe fails both before and after the forced refresh, because the flush sits in a `finally` block -- and zero times only when `from_config` itself raises. -/
theorem c1_write_iff_initial_access (conf : TomlConf) (o : Oracles) :
    countEv (runGetClient conf o).1 .write = (if initOk conf o then 1 else 0) := by
  unfold runGetClient initOk
  cases hq : aget conf "questrade" with
  | none => rfl
  | some qd =>
      dsimp only
      rcases he : enable_access ⟨qd, initSess⟩ o.t1 o.t2 o.resp0 false with ⟨st1, tr0, r0⟩
      have h0 := enable_access_events ⟨qd, initSess⟩ o.t1 o.t2 o.resp0 false
      rw [he] at h0
      simp only at h0
      obtain ⟨-, -, hw0⟩ := countEv_refresh_only tr0 h0
      cases r0 with
      | error e =>
          dsimp only
          rw [hw0]
          decide
      | ok d =>
          dsimp only
          rw [countEv_append, countEv_append, hw0, getClientInner_no_write]
          decide



/-- C5: in every `get_client` run at most two liveness probes occur; if the first probe raises, exactly one forced refresh (`enable_access` with `force_refresh=True`) is invoked, a second probe follows exactly when that forced refresh returns normally, a third probe never occurs, and a failure of the second probe (or of the forced refresh itself) propagates as the run result. -/
theorem c5_probe_retry_policy (conf : TomlConf) (o : Oracles) (qd d0 : PyDict) (st1 : CState)
    (tr0 : List Ev) (e1 : PyErr)
    (hq : aget conf "questrade" = some qd)
    (henable : enable_access ⟨qd, initSess⟩ o.t1 o.t2 o.resp0 false = (st1, tr0, .ok d0))
    (hp1 : o.probe1 = .error e1) :
    (∀ c2 o2, countEv (runGetClient c2 o2).1 .probe ≤ 2) ∧
    countEv (runGetClient conf o).1 .forcedRefresh = 1 ∧
    (∀ st2 trF d1, enable_access st1 o.t3 o.t4 o.resp1 true = (st2, trF, .ok d1) →
      countEv (runGetClient conf o).1 .probe = 2 ∧
      ∀ e2, o.probe2 = .error e2 → (runGetClient conf o).2 = .error e2) ∧
    (∀ st2 trF e, enable_access st1 o.t3 o.t4 o.resp1 true = (st2, trF, .error e) →
      countEv (runGetClient conf o).1 .probe = 1 ∧ (runGetClient conf o).2 = .error e) := by
  obtain ⟨v, hv⟩ := enable_access_ok_access_token _ o.t1 o.t2 o.resp0 false st1 tr0 d0 henable
  have h0 := enable_access_events ⟨qd, initSess⟩ o.t1 o.t2 o.resp0 false
  rw [henable] at h0
  simp only at h0
  obtain ⟨hp0, hf0, -⟩ := countEv_refresh_only tr0 h0
  have hrun : runGetClient conf o =
      (tr0 ++ (getClientInner st1 o).1 ++ [.write], (getClientInner st1 o).2) := by
    unfold runGetClient
    rw [hq]
    dsimp only
    rw [henable]
  refine ⟨fun c2 o2 => runGetClient_probe_le_two c2 o2, ?_, ?_, ?_⟩
  · have hIf : countEv (getClientInner st1 o).1 .forcedRefresh = 1 := by
      unfold getClientInner
      rw [hp1]
      dsimp only
      rw [hv]
      dsimp only
      rcases hf : enable_access st1 o.t3 o.t4 o.resp1 true with ⟨st2, trF, rF⟩
      have hE := enable_access_events st1 o.t3 o.t4 o.resp1 true
      rw [hf] at hE
      simp only at hE
      obtain ⟨-, hff, -⟩ := countEv_refresh_only trF hE
      cases rF with
      | error e =>
          dsimp only
          rw [countEv_append, hff]
          decide
      | ok d1 =>
          dsimp only
          cases hp2 : o.probe2 with
          | error e2 =>
              dsimp only
              rw [countEv_append, countEv_append, hff]
              decide
          | ok dd =>
              dsimp only
              rw [countEv_append, countEv_append, hff]
              decide
    rw [hrun, countEv_append, countEv_append, hf0, hIf]
    decide
  · intro st2 trF d1 hfok
    have hE := enable_access_events st1 o.t3 o.t4 o.resp1 true
    rw [hfok] at hE
    simp only at hE
    obtain ⟨hfp, -, -⟩ := countEv_refresh_only trF hE
    have hInner : getClientInner st1 o =
        ([.probe, .forcedRefresh] ++ trF ++ [.probe],
          match o.probe2 with
          | .error e2 => .error e2
          | .ok _ => o.body) := by
      unfold getClientInner
      rw [hp1]
      dsimp only
      rw [hv]
      dsimp only
      rw [hfok]
      dsimp only
      cases hp2 : o.probe2 with
      | error e2 => rfl
      | ok dd => rfl
    constructor
    · rw [hrun, hInner]
      simp only [countEv_append]
      rw [hp0, hfp]
      decide
    · intro e2 hp2
      rw [hrun]
      dsimp only
      rw [hInner]
      dsimp only
      rw [hp2]
  · intro st2 trF e hferr
    have hE := enable_access_events st1 o.t3 o.t4 o.resp1 true
    rw [hferr] at hE
    simp only at hE
    obtain ⟨hfp, -, -⟩ := countEv_refresh_only trF hE
    have hInner : getClientInner st1 o = ([.probe, .forcedRefresh] ++ trF, .error e) := by
      unfold getClientInner
      rw [hp1]
      dsimp only
      rw [hv]
      dsimp only
      rw [hferr]
    constructor
    · rw [hrun, hInner]
      simp only [countEv_append]
      rw [hp0, hfp]
      decide
    · rw [hrun]
      dsimp only
      rw [hInner]



/-- With `access_token` present but `token_type` or `api_server` missing, `_prep_sess` raises a `KeyError`. -/
theorem prep_sess_missing_key (st : CState) (tok : Value)
    (htok : aget st.access_data "access_token" = some tok)
    (hmiss : aget st.access_data "token_type" = none ∨ aget st.access_data "api_server" = none) :
    ∃ k, prep_sess st.access_data st.sess = .error (.keyError k) := by
  cases hmiss with
  | inl h =>
      exact ⟨"token_type", by unfold prep_sess; rw [h]⟩
  | inr h =>
      cases h1 : aget st.access_data "token_type" with
      | none => exact ⟨"token_type", by unfold prep_sess; rw [h1]⟩
      | some tt => exact ⟨"api_server", by unfold prep_sess; rw [h1, htok, h]⟩

/-- C10: `enable_access` runs `_prep_sess` even on the no-refresh cached path, so a record with a present, non-falsy `access_token` and an unexpired `expires_at` that lacks `token_type` or `api_server` makes `enable_access` raise a `KeyError` (and perform zero refresh calls) instead of returning the record. -/
theorem c10_prep_sess_keyerror (st : CState) (t1 t2 : ℚ) (resp : Response) (tok : Value) (ex : ℚ)
    (htok : aget st.access_data "access_token" = some tok)
    (hfal : pyFalsy (some tok) = false)
    (hex : pyFloat (agetD st.access_data "expires_at" (.num 0)) = .ok ex)
    (hfresh : ¬ ex < t1)
    (hmiss : aget st.access_data "token_type" = none ∨ aget st.access_data "api_server" = none) :
    (∃ k, (enable_access st t1 t2 resp false).2.2 = .error (.keyError k)) ∧
    countEv (enable_access st t1 t2 resp false).2.1 .refresh = 0 := by
  have hcneg : ¬ ((pyFalsy (aget st.access_data "access_token") || decide (ex < t1) || false) = true) := by
    rw [htok, hfal]
    simp [hfresh]
  obtain ⟨k, hk⟩ := prep_sess_missing_key st tok htok hmiss
  constructor
  · refine ⟨k, ?_⟩
    unfold enable_access
    rw [hex]
    dsimp only
    rw [if_neg hcneg, hk]
  · unfold enable_access
    rw [hex]
    dsimp only
    rw [if_neg hcneg, hk]
    rfl

/-- C6: `resproc` raises `QuestradeError` carrying the raw response body exactly when the status code differs from 200, and that error propagates out of `enable_access` when the refresh call returns such a status. -/
theorem c6_resproc_auth_error (resp : Response) (st : CState) (t1 t2 : ℚ) (ex : ℚ) (rt : Value)
    (hex : pyFloat (agetD st.access_data "expires_at" (.num 0)) = .ok ex)
    (hrt : aget st.access_data "refresh_token" = some rt) :
    ((resproc resp = .error (.questradeError resp.body)) ↔ resp.status_code ≠ 200) ∧
    (resp.status_code ≠ 200 →
      (enable_access st t1 t2 resp true).2.2 = .error (.questradeError resp.body)) := by
  constructor
  · constructor
    · intro h hs
      unfold resproc at h
      rw [if_pos hs] at h
      cases h
    · intro hs
      unfold resproc
      rw [if_neg hs]
  · intro hs
    have hresproc : resproc resp = .error (.questradeError resp.body) := by
      unfold resproc
      rw [if_neg hs]
    have hna : new_auth_token st resp = (st, [.refresh], .error (.questradeError resp.body)) := by
      unfold new_auth_token
      rw [hrt, hresproc]
    have hcond : (pyFalsy (aget st.access_data "access_token") || decide (ex < t1) || true) = true := by
      simp
    unfold enable_access
    rw [hex]
    dsimp only
    rw [if_pos hcond, hna]

/-- C3 (amended): `config.write` of an empty mapping always fails with the blank-config `ValueError` and writes no file, but it creates the containing directory first when that directory does not exist, because the directory check precedes the empty-mapping guard. -/
theorem c3_empty_write_amended (pathOpt : Option FPath) (cfgDir : String) (fs : FS) :
    (write [] pathOpt cfgDir fs).2 = .error (.valueError "blank config") ∧
    (write [] pathOpt cfgDir fs).1.files = fs.files ∧
    ((write [] pathOpt cfgDir fs).1.dirs = fs.dirs ∨
      (write [] pathOpt cfgDir fs).1.dirs = (resolvePath cfgDir pathOpt).dir :: fs.dirs) := by
  unfold write
  dsimp only
  by_cases h : fs.dirs.contains (resolvePath cfgDir pathOpt).dir
  · rw [if_pos h]
    exact ⟨rfl, rfl, .inl rfl⟩
  · rw [if_neg h]
    exact ⟨rfl, rfl, .inr rfl⟩

/-- C8: a successful `write` of a non-empty mapping followed by `load` on the same path returns exactly the written mapping. -/
theorem c8_write_load_roundtrip (conf : TomlConf) (pathOpt : Option FPath) (cfgDir : String) (fs : FS)
    (hne : conf ≠ []) :
    (write conf pathOpt cfgDir fs).2 = .ok () ∧
    load pathOpt cfgDir (write conf pathOpt cfgDir fs).1 = .ok (conf, resolvePath cfgDir pathOpt) := by
  have hne2 : conf.isEmpty = false := by
    cases conf with
    | nil => exact absurd rfl hne
    | cons a l => rfl
  constructor
  · unfold write
    simp [hne2]
  · unfold load write
    simp [hne2, aget_aset_self]



def respNull : Response := ⟨200, "", []⟩

def respRef : Response :=
  ⟨200, "", [("access_token", .str "X"), ("token_type", .str "Bearer"),
             ("api_server", .str "https://x/"), ("expires_in", .num 1800),
             ("refresh_token", .str "r2")]⟩

def respBad : Response := ⟨500, "oops", []⟩

def adSeed : PyDict := [("refresh_token", .str "abc")]

def adNoType : PyDict :=
  [("refresh_token", .str "r"), ("access_token", .str "x"), ("expires_at", .num 100)]

def adCached : PyDict :=
  [("refresh_token", .str "r"), ("access_token", .str "x"),
   ("token_type", .str "Bearer"), ("api_server", .str "https://q/"),
   ("expires_at", .num 1000)]

def confCached : TomlConf := [("questrade", adCached)]

def oraclesBothProbesFail : Oracles :=
  { t1 := 0, t2 := 0, resp0 := respNull, probe1 := .error (.questradeError "bad"),
    t3 := 0, t4 := 0, resp1 := respRef, probe2 := .error (.questradeError "bad2"),
    body := .ok () }

def fsEmpty : FS := ⟨[], []⟩

def pW : FPath := ⟨"cfgdir", "brokers.toml"⟩

def confW8 : TomlConf := [("questrade", [("refresh_token", .str "r")])]

/-- C1 counterexample: a run whose probes both fail (so `get_client` fails) still invokes `config.write` once, refuting the claim that a failed open leaves the store untouched. -/
theorem c1_counterexample :
    (runGetClient confCached oraclesBothProbesFail).2 = .error (.questradeError "bad2") ∧
    countEv (runGetClient confCached oraclesBothProbesFail).1 .write = 1 := ⟨rfl, rfl⟩

/-- C2 witness: fresh token, no force, one concrete call with zero refreshes. -/
theorem c2_witness :
    countEv (enable_access ⟨adNoType, initSess⟩ 50 50 respNull false).2.1 .refresh =
      (if pyFalsy (aget adNoType "access_token") = true ∨ (100:ℚ) < 50 ∨ false = true
       then 1 else 0) :=
  c2_refresh_iff_amended ⟨adNoType, initSess⟩ 50 50 respNull false 100 (.str "r") rfl rfl

/-- C2 counterexample: with `access_token` present and now equal to `expires_at`, the claim (refresh iff now at-or-past expiry) predicts one refresh, but the code, which tests `expires < now` strictly, performs zero. -/
theorem c2_counterexample : ¬ claimC2At ⟨adNoType, initSess⟩ 100 100 respNull false := by
  unfold claimC2At specExpiresAt
  decide

/-- C3 counterexample: writing an empty mapping into a filesystem without the config directory mutates the filesystem (the directory is created) before the `ValueError` is raised. -/
theorem c3_counterexample :
    (write [] (some pW) "appdir" fsEmpty).1 ≠ fsEmpty ∧
    (write [] (some pW) "appdir" fsEmpty).2 = .error (.valueError "blank config") := by
  constructor
  · decide
  · rfl

/-- C4 witness: the seed-record scenario of spec section 8 at clock 0 with `expires_in` 1800. -/
theorem c4_witness :
    aget (enable_access ⟨adSeed, initSess⟩ 0 0 respRef false).1.access_data "expires_at"
        = some (.num ((0:ℚ) + 1800)) ∧ (0:ℚ) < (0:ℚ) + 1800 := by
  have h := c4_refresh_merge_expiry ⟨adSeed, initSess⟩ 0 0 respRef false 0 1800 (.str "abc")
    rfl rfl (by decide) rfl rfl (by decide) (by decide) (by decide)
  exact ⟨h.1, h.2.1⟩

/-- C5 witness: the double-probe-failure run performs exactly one forced refresh. -/
theorem c5_witness :
    countEv (runGetClient confCached oraclesBothProbesFail).1 .forcedRefresh = 1 :=
  (c5_probe_retry_policy confCached oraclesBothProbesFail adCached adCached
    ⟨adCached, ⟨[("Authorization", .str "Bearer x")], some "https://q/v1"⟩⟩ []
    (.questradeError "bad") rfl rfl rfl).2.1

/-- C6 witness: a 500 response raises `QuestradeError` with its body and propagates. -/
theorem c6_witness :
    ((resproc respBad = .error (.questradeError respBad.body)) ↔ respBad.status_code ≠ 200) ∧
    (respBad.status_code ≠ 200 →
      (enable_access ⟨adSeed, initSess⟩ 0 0 respBad true).2.2 =
        .error (.questradeError respBad.body)) :=
  c6_resproc_auth_error respBad ⟨adSeed, initSess⟩ 0 0 0 (.str "abc") rfl rfl

/-- C7 (amended): `_revoke_auth_token` does no error handling at all -- given the record has a `refresh_token`, it returns exactly the transport outcome: a raised transport error propagates to the caller, and a non-success status is returned undetected (no status check, nothing logged-only). -/
theorem c7_revoke_passthrough (st : CState) (r : Except PyErr Response) (rt : Value)
    (hrt : aget st.access_data "refresh_token" = some rt) :
    revoke_auth_token st r = r := by
  unfold revoke_auth_token
  rw [hrt]

/-- C7 counterexample: a transport error raised by the revoke POST propagates out of `_revoke_auth_token`, refuting the claim that revocation errors are never propagated. -/
theorem c7_counterexample :
    revoke_auth_token ⟨adSeed, initSess⟩ (.error (.transportError "connection lost")) =
      .error (.transportError "connection lost") := rfl

/-- C7 witness: a 400 revoke response is passed through without raising. -/
theorem c7_witness :
    revoke_auth_token ⟨adSeed, initSess⟩ (.ok ⟨400, "denied", []⟩) = .ok ⟨400, "denied", []⟩ :=
  c7_revoke_passthrough ⟨adSeed, initSess⟩ (.ok ⟨400, "denied", []⟩) (.str "abc") rfl

/-- C8 witness: one concrete non-empty config round-trips. -/
theorem c8_witness :
    (write confW8 (some pW) "appdir" fsEmpty).2 = .ok () ∧
    load (some pW) "appdir" (write confW8 (some pW) "appdir" fsEmpty).1 =
      .ok (confW8, resolvePath "appdir" (some pW)) :=
  c8_write_load_roundtrip confW8 (some pW) "appdir" fsEmpty (by decide)

/-- C9 witness: a 500 refresh response leaves the concrete seed record untouched. -/
theorem c9_witness :
    (enable_access ⟨adSeed, initSess⟩ 0 0 respBad false).1 = ⟨adSeed, initSess⟩ ∧
    (enable_access ⟨adSeed, initSess⟩ 0 0 respBad false).2.2 =
      .error (.questradeError "oops") :=
  c9_refresh_failure_atomic ⟨adSeed, initSess⟩ 0 0 respBad false 0 (.str "abc")
    rfl rfl (by decide) (by decide)

/-- C10 witness: a fresh record without `token_type` makes the cached path raise a `KeyError`. -/
theorem c10_witness :
    (∃ k, (enable_access ⟨adNoType, initSess⟩ 50 50 respNull false).2.2 =
      .error (.keyError k)) ∧
    countEv (enable_access ⟨adNoType, initSess⟩ 50 50 respNull false).2.1 .refresh = 0 :=
  c10_prep_sess_keyerror ⟨adNoType, initSess⟩ 50 50 respNull (.str "x") 100
    rfl rfl rfl (by decide) (.inl rfl)

end Piker
